import Mathlib

/-!
# PhenomeBeauty booking server — verification of the specification

Shallow embedding of the PhenomeBeauty booking server (v5.2, `api/index.js`
together with `api/lib/sheet.js`), with theorems checking the natural-language
specification against the code.

Conventions:
* JavaScript numbers are modelled as `ℚ` (`Math.round` becomes `jsRound`,
  `x.toFixed(2)`-style cent rounding becomes `roundCents`).
* Failed `parseFloat` / `Number` conversions (`NaN`) are modelled with
  `Option`.
* Sheet cells are strings, exactly as in the source.
-/

namespace Phenome

/-- JavaScript `Math.round`: round half towards positive infinity,
`Math.round x = ⌊x + 1/2⌋`. -/
def jsRound (x : ℚ) : ℤ := ⌊x + 1/2⌋

/-- Embeds `Math.round(x * 100) / 100` — round a rand amount to whole cents,
as done for `serverDeposit` and `serverBalance` in `POST /api/book`. -/
def roundCents (x : ℚ) : ℚ := (jsRound (x * 100) : ℚ) / 100

/-- Embeds the `serverServicesTotal` reduction of `POST /api/book`:

`services.reduce((sum, x) => sum + (isFinite(p) && p >= 0 ? p : 0), 0)`
where `p = parseFloat(x.price || 0)` for object entries and `0` otherwise.
Each list entry is the parsed price of one submitted service
(`none` = the parse produced `NaN`, or the entry was not an object). -/
def serverServicesTotal (prices : List (Option ℚ)) : ℚ :=
  prices.foldl
    (fun sum p? =>
      sum + (match p? with
             | some p => if 0 ≤ p then p else 0
             | none => 0))
    0

/-- Embeds `serverCallOut = Math.max(0, parseFloat(callOutFee) || 0)`.
`callOut? = none` models a `NaN` parse, which `|| 0` turns into `0`. -/
def serverCallOut (callOut? : Option ℚ) : ℚ := max 0 (callOut?.getD 0)

/-- Embeds `serverTotal = serverServicesTotal + serverCallOut` in `POST /api/book`. -/
def serverTotal (prices : List (Option ℚ)) (callOut? : Option ℚ) : ℚ :=
  serverServicesTotal prices + serverCallOut callOut?

/-- Embeds `serverDeposit` of `POST /api/book`:

`serverTotal > 0 ? Math.round(serverTotal * settingPct * 100) / 100
               : Math.round(Number(depositAmount) * 100) / 100`
with `settingPct = parseFloat(s.deposit_percent || '50') / 100 = pct / 100`.
`clientDeposit` is the client-submitted `Number(depositAmount)` fallback. -/
def serverDeposit (prices : List (Option ℚ)) (callOut? : Option ℚ)
    (pct clientDeposit : ℚ) : ℚ :=
  if 0 < serverTotal prices callOut? then
    roundCents (serverTotal prices callOut? * (pct / 100))
  else
    roundCents clientDeposit

/-- Embeds `serverBalance = Math.round((serverTotal - serverDeposit) * 100) / 100`. -/
def serverBalance (prices : List (Option ℚ)) (callOut? : Option ℚ)
    (pct clientDeposit : ℚ) : ℚ :=
  roundCents (serverTotal prices callOut? - serverDeposit prices callOut? pct clientDeposit)

/-- Embeds `dep = Math.max(0, serverDeposit)` — the deposit amount stored in
the `Deposit Amount (R)` column and charged through Yoco. -/
def storedDeposit (prices : List (Option ℚ)) (callOut? : Option ℚ)
    (pct clientDeposit : ℚ) : ℚ :=
  max 0 (serverDeposit prices callOut? pct clientDeposit)

/-- Embeds `bal = Math.max(0, serverBalance)` — the balance stored in the
`Balance Due (R)` column. -/
def storedBalance (prices : List (Option ℚ)) (callOut? : Option ℚ)
    (pct clientDeposit : ℚ) : ℚ :=
  max 0 (serverBalance prices callOut? pct clientDeposit)

/-- Rounding a nonnegative number with `jsRound` is nonnegative. -/
theorem jsRound_nonneg {x : ℚ} (hx : 0 ≤ x) : 0 ≤ jsRound x := by
  rw [jsRound, Int.le_floor]
  push_cast
  linarith

/-- Upper bound `jsRound x ≤ x + 1/2`. -/
theorem jsRound_le {x : ℚ} : (jsRound x : ℚ) ≤ x + 1/2 := by
  rw [jsRound]
  exact Int.floor_le _

/-- Rounding a nonnegative number to cents is nonnegative. -/
theorem roundCents_nonneg {x : ℚ} (hx : 0 ≤ x) : 0 ≤ roundCents x := by
  have h : 0 ≤ jsRound (x * 100) := jsRound_nonneg (by positivity)
  rw [roundCents]
  positivity

/-- Shifting by a whole number of cents commutes with `roundCents`. -/
theorem roundCents_sub_cents (x : ℚ) (k : ℤ) :
    roundCents (x - (k : ℚ) / 100) = roundCents x - (k : ℚ) / 100 := by
  unfold roundCents jsRound
  have harg : (x - (k : ℚ) / 100) * 100 + 1/2 = (x * 100 + 1/2) + (-k : ℤ) := by
    push_cast; ring
  rw [harg, Int.floor_add_int]
  push_cast
  ring

/-- Core arithmetic of the deposit/balance split: with `0 ≤ pct ≤ 100` and a
positive total, the rounded deposit is nonnegative, the rounded balance is
nonnegative, and they add back up to the total rounded to cents. -/
theorem deposit_balance_core (T pct : ℚ) (hp0 : 0 ≤ pct) (hp1 : pct ≤ 100)
    (hT : 0 < T) :
    0 ≤ roundCents (T * (pct / 100)) ∧
    0 ≤ roundCents (T - roundCents (T * (pct / 100))) ∧
    roundCents (T * (pct / 100)) + roundCents (T - roundCents (T * (pct / 100)))
      = roundCents T := by
  have hdep_nonneg : 0 ≤ roundCents (T * (pct / 100)) :=
    roundCents_nonneg (by positivity)
  set k : ℤ := jsRound (T * (pct / 100) * 100) with hk
  have hdep_eq : roundCents (T * (pct / 100)) = (k : ℚ) / 100 := by
    rw [roundCents, hk]
  have hk_le : (k : ℚ) ≤ T * pct + 1/2 := by
    have := jsRound_le (x := T * (pct / 100) * 100)
    rw [← hk] at this
    calc (k : ℚ) ≤ T * (pct / 100) * 100 + 1/2 := this
    _ = T * pct + 1/2 := by ring
  have hbal_nonneg : 0 ≤ roundCents (T - roundCents (T * (pct / 100))) := by
    rw [hdep_eq, roundCents, jsRound]
    have harg : (0 : ℚ) ≤ (T - (k : ℚ) / 100) * 100 + 1/2 := by
      have hTp : T * pct ≤ T * 100 := by nlinarith
      nlinarith
    have hfloor : (0 : ℤ) ≤ ⌊(T - (k : ℚ) / 100) * 100 + 1/2⌋ := by
      rw [Int.le_floor]; exact_mod_cast harg
    positivity
  refine ⟨hdep_nonneg, hbal_nonneg, ?_⟩
  rw [hdep_eq, roundCents_sub_cents]
  ring

/-- C1 — in `POST /api/book`, for a positive server-recomputed total and a
deposit percentage between 0 and 100, the stored deposit is the total times
`pct/100` rounded to cents, the stored balance is the total minus the stored
deposit rounded to cents, and their sum is exactly the total rounded to
cents. -/
theorem stored_deposit_balance_spec
    (prices : List (Option ℚ)) (callOut? : Option ℚ) (pct clientDeposit : ℚ)
    (hp0 : 0 ≤ pct) (hp1 : pct ≤ 100)
    (hT : 0 < serverTotal prices callOut?) :
    storedDeposit prices callOut? pct clientDeposit
        = roundCents (serverTotal prices callOut? * (pct / 100)) ∧
    storedBalance prices callOut? pct clientDeposit
        = roundCents (serverTotal prices callOut?
            - storedDeposit prices callOut? pct clientDeposit) ∧
    storedDeposit prices callOut? pct clientDeposit
        + storedBalance prices callOut? pct clientDeposit
        = roundCents (serverTotal prices callOut?) := by
  obtain ⟨hd, hb, hsum⟩ :=
    deposit_balance_core (serverTotal prices callOut?) pct hp0 hp1 hT
  have hdep : serverDeposit prices callOut? pct clientDeposit
      = roundCents (serverTotal prices callOut? * (pct / 100)) := by
    rw [serverDeposit, if_pos hT]
  have hsd : storedDeposit prices callOut? pct clientDeposit
      = roundCents (serverTotal prices callOut? * (pct / 100)) := by
    rw [storedDeposit, hdep, max_eq_right hd]
  have hsb : storedBalance prices callOut? pct clientDeposit
      = roundCents (serverTotal prices callOut?
          - roundCents (serverTotal prices callOut? * (pct / 100))) := by
    rw [storedBalance, serverBalance, hdep, max_eq_right hb]
  refine ⟨hsd, ?_, ?_⟩
  · rw [hsb, hsd]
  · rw [hsd, hsb, hsum]

/-- Witness for C1: two services priced 450 and 550 with deposit percent 50
and no call-out fee give total 1000, deposit 500.00, balance 500.00, and
`deposit + balance = total` exactly. -/
theorem stored_deposit_balance_spec_witness :
    (0 : ℚ) ≤ 50 ∧ (50 : ℚ) ≤ 100 ∧ 0 < serverTotal [some 450, some 550] none ∧
    (storedDeposit [some 450, some 550] none 50 0
        = roundCents (serverTotal [some 450, some 550] none * (50 / 100)) ∧
     storedBalance [some 450, some 550] none 50 0
        = roundCents (serverTotal [some 450, some 550] none
            - storedDeposit [some 450, some 550] none 50 0) ∧
     storedDeposit [some 450, some 550] none 50 0
        + storedBalance [some 450, some 550] none 50 0
        = roundCents (serverTotal [some 450, some 550] none)) ∧
    storedDeposit [some 450, some 550] none 50 0 = 500 ∧
    storedBalance [some 450, some 550] none 50 0 = 500 ∧
    storedDeposit [some 450, some 550] none 50 0
      + storedBalance [some 450, some 550] none 50 0
      = serverTotal [some 450, some 550] none := by
  have hT : (0 : ℚ) < serverTotal [some 450, some 550] none := by
    norm_num [serverTotal, serverServicesTotal, serverCallOut]
  have hdep : storedDeposit [some 450, some 550] none 50 0 = 500 := by
    norm_num [storedDeposit, serverDeposit, serverTotal, serverServicesTotal,
      serverCallOut, roundCents, jsRound]
  have hbal : storedBalance [some 450, some 550] none 50 0 = 500 := by
    norm_num [storedBalance, serverBalance, serverDeposit, serverTotal,
      serverServicesTotal, serverCallOut, roundCents, jsRound]
  refine ⟨by norm_num, by norm_num, hT,
    stored_deposit_balance_spec _ _ _ _ (by norm_num) (by norm_num) hT,
    hdep, hbal, ?_⟩
  rw [hdep, hbal]
  norm_num [serverTotal, serverServicesTotal, serverCallOut]

/-! ## JavaScript string primitives

The sheet values handled by the server are strings.  Lean's own `String`
library functions are not kernel-reducible, so the JavaScript string
operations used by the source are embedded here as structurally recursive
functions on `List Char`.  All sheet text involved is ASCII. -/

/-- Decimal digit to character. -/
def digitChar : Nat → Char
  | 0 => '0' | 1 => '1' | 2 => '2' | 3 => '3' | 4 => '4'
  | 5 => '5' | 6 => '6' | 7 => '7' | 8 => '8' | _ => '9'

/-- Decimal digits of `n` (fuel-driven helper for `natToStr`). -/
def natChars : Nat → Nat → List Char
  | 0, _ => []
  | fuel+1, n =>
    if n < 10 then [digitChar n]
    else natChars fuel (n / 10) ++ [digitChar (n % 10)]

/-- JavaScript `String(n)` for a natural number. -/
def natToStr (n : Nat) : String := ⟨natChars (n + 1) n⟩

/-- ASCII whitespace, the kinds occurring in sheet cells. -/
def isWs (c : Char) : Bool := c == ' ' || c == '\t' || c == '\n' || c == '\r'

/-- Drop whitespace from both ends of a character list. -/
def trimChars (l : List Char) : List Char :=
  ((l.dropWhile isWs).reverse.dropWhile isWs).reverse

/-- JavaScript `s.trim()`. -/
def jsTrim (s : String) : String := ⟨trimChars s.data⟩

/-- Uppercase one ASCII character. -/
def upperChar (c : Char) : Char :=
  if 'a' ≤ c ∧ c ≤ 'z' then Char.ofNat (c.toNat - 32) else c

/-- JavaScript `s.toUpperCase()` (ASCII). -/
def jsToUpper (s : String) : String := ⟨s.data.map upperChar⟩

/-- Lowercase one ASCII character. -/
def lowerChar (c : Char) : Char :=
  if 'A' ≤ c ∧ c ≤ 'Z' then Char.ofNat (c.toNat + 32) else c

/-- JavaScript `s.toLowerCase()` (ASCII). -/
def jsToLower (s : String) : String := ⟨s.data.map lowerChar⟩

/-- Split a character list at every occurrence of `sep`. -/
def splitAux (sep : Char) : List Char → List Char → List (List Char)
  | [], acc => [acc.reverse]
  | c :: rest, acc =>
    if c == sep then acc.reverse :: splitAux sep rest []
    else splitAux sep rest (c :: acc)

/-- JavaScript `s.split(sep)` for a one-character separator. -/
def jsSplit (s : String) (sep : Char) : List String :=
  (splitAux sep s.data []).map (fun l => ⟨l⟩)

/-- Lexicographic character-list comparison. -/
def charsLt : List Char → List Char → Bool
  | [], [] => false
  | [], _ :: _ => true
  | _ :: _, [] => false
  | a :: as, b :: bs => if a < b then true else if b < a then false else charsLt as bs

/-- JavaScript `a < b` on strings: lexicographic by code unit (code point for
the ASCII data at hand). -/
def jsStrLt (a b : String) : Bool := charsLt a.data b.data

/-- JavaScript `Number(s)` restricted to the nonnegative-integer strings the
availability code feeds it: the empty string converts to `0`, a string of
decimal digits to its value, anything else to `NaN` (modelled `none`). -/
def jsNumberNat (s : String) : Option Nat :=
  if s.data.isEmpty then some 0
  else if s.data.all Char.isDigit then
    some (s.data.foldl (fun a c => a * 10 + (c.toNat - 48)) 0)
  else none

/-- JavaScript `s.startsWith(p)`. -/
def jsStartsWith (s p : String) : Bool := s.data.take p.data.length == p.data

/-! ## Calendar arithmetic

`new Date(year, month - 1, d)` / `new Date(year, month, 0).getDate()` for the
in-range civil dates the availability engine touches. -/

/-- Gregorian leap year. -/
def isLeap (y : Nat) : Bool := (y % 4 == 0 && y % 100 != 0) || y % 400 == 0

/-- Embeds `new Date(year, month, 0).getDate()` — the number of days of month
`m ∈ 1..12` of year `y`. -/
def daysInMonth (y m : Nat) : Nat :=
  if m == 2 then (if isLeap y then 29 else 28)
  else if m == 4 || m == 6 || m == 9 || m == 11 then 30
  else 31

/-- Month offsets of Sakamoto's weekday algorithm. -/
def sakamotoT : List Nat := [0, 3, 2, 5, 0, 3, 5, 1, 4, 6, 2, 4]

/-- Embeds `new Date(y, m - 1, d).getDay()`: day of the week of the civil date
`y-m-d`, `0` = Sunday (Sakamoto's algorithm, Gregorian calendar). -/
def dayOfWeek (y m d : Nat) : Nat :=
  let y' := if m < 3 then y - 1 else y
  (y' + y' / 4 - y' / 100 + y' / 400 + sakamotoT.getD (m - 1) 0 + d) % 7

/-- JavaScript `String(n).padStart(2, '0')`. -/
def pad2 (n : Nat) : String := if n < 10 then "0" ++ natToStr n else natToStr n

/-- The `monthKey` string of `getMonthAvailability`. -/
def monthKeyOf (year month : Nat) : String := natToStr year ++ "-" ++ pad2 month

/-- The `dateStr` of the day loop of `getMonthAvailability`. -/
def dateStrOf (year month d : Nat) : String := monthKeyOf year month ++ "-" ++ pad2 d

/-- The `DAYS` weekday-name table of `getMonthAvailability`. -/
def dayToDow (s : String) : Option Nat :=
  if s == "sunday" then some 0
  else if s == "monday" then some 1
  else if s == "tuesday" then some 2
  else if s == "wednesday" then some 3
  else if s == "thursday" then some 4
  else if s == "friday" then some 5
  else if s == "saturday" then some 6
  else none

/-! ## Data model -/

/-- One row of the `Availability` sheet, as read by `getMonthAvailability`. -/
structure AvRow where
  availableFlag : String
  weekday : String
  timeSlot : String
  deriving DecidableEq

/-- One row of the `Bookings` sheet (the columns the verified routes read or
write). -/
structure Booking where
  bookingId : String
  date : String
  time : String
  depositStatus : String
  balanceStatus : String
  yocoCheckoutId : String
  yocoLink : String
  calendarEventId : String
  balanceDue : String
  deriving DecidableEq

/-! ## Availability engine (`GET /api?action=getMonthAvailability`) -/

/-- The `slotsByDow` table of `getMonthAvailability`, read off for one day of
the week: template rows whose `Available (YES/NO)` cell uppercases to `YES`,
whose trimmed lowercased `Weekday/Date` names this weekday and whose trimmed
`Time Slot` is nonempty, in sheet order. -/
def slotsForDow (avRows : List AvRow) (dow : Nat) : List String :=
  avRows.filterMap (fun r =>
    if jsToUpper r.availableFlag == "YES"
        && dayToDow (jsToLower (jsTrim r.weekday)) == some dow
        && jsTrim r.timeSlot != "" then
      some (jsTrim r.timeSlot)
    else none)

/-- Membership in the `booked` table of `getMonthAvailability`: slot `t` is
booked on date `ds` iff some bookings row has a `Deposit Status` other than
`Cancelled`/`Refunded`, trimmed `Date` equal to `ds` (and inside the queried
month), and nonempty trimmed `Time` equal to `t`. -/
def isBookedAt (bookings : List Booking) (monthKey ds t : String) : Bool :=
  bookings.any (fun b =>
    jsTrim b.depositStatus != "Cancelled"
      && jsTrim b.depositStatus != "Refunded"
      && jsTrim b.date == ds
      && jsStartsWith (jsTrim b.date) monthKey
      && jsTrim b.time == t
      && jsTrim b.time != "")

/-- Embeds `(slot.split('-')[0] || '00:00').split(':').map(Number)` followed by
`h * 60 + m`: start of a slot in minutes since midnight, `none` when the
conversion produces `NaN`. -/
def startMins (slot : String) : Option Nat :=
  let first := (jsSplit slot '-').headD ""
  let st := if first == "" then "00:00" else first
  let parts := jsSplit st ':'
  match jsNumberNat (parts.getD 0 ""), parts.get? 1 with
  | some h, some mStr =>
    match jsNumberNat mStr with
    | some m => some (h * 60 + m)
    | none => none
  | _, _ => none

/-- The today filter `(h * 60 + m) > nowMins` (false on `NaN`). -/
def startOkAfter (slot : String) (nowMins : Nat) : Bool :=
  match startMins slot with
  | some v => nowMins < v
  | none => false

/-- Slot list emitted for one date: the weekday template minus booked slots,
and minus already-started slots when the date is today. -/
def availTimes (avRows : List AvRow) (bookings : List Booking)
    (monthKey todayStr : String) (nowMins : Nat) (ds : String) (dow : Nat) :
    List String :=
  let slots0 := slotsForDow avRows dow
  let slots1 := slots0.filter (fun t => !isBookedAt bookings monthKey ds t)
  if ds == todayStr then slots1.filter (fun t => startOkAfter t nowMins)
  else slots1

/-- One iteration of the day loop of `getMonthAvailability`: skip past dates,
compute the remaining slots, and emit the date only when the list is
nonempty. -/
def dayEntry (year month : Nat) (avRows : List AvRow) (bookings : List Booking)
    (todayStr : String) (nowMins : Nat) (d : Nat) :
    Option (String × List String) :=
  let ds := dateStrOf year month d
  if jsStrLt ds todayStr then none
  else
    let slots := availTimes avRows bookings (monthKeyOf year month) todayStr
      nowMins ds (dayOfWeek year month d)
    if slots.isEmpty then none else some (ds, slots)

/-- Embeds `getMonthAvailability`: the date → slots association produced for the
queried month, given the availability template rows, the bookings rows, and
the current SAST civil date and time of day (`sastNow()`). -/
def getMonthAvailability (year month : Nat) (avRows : List AvRow)
    (bookings : List Booking) (todayStr : String) (nowMins : Nat) :
    List (String × List String) :=
  ((List.range (daysInMonth year month)).map (· + 1)).filterMap
    (dayEntry year month avRows bookings todayStr nowMins)

/-- Unfolding membership in the month availability table: every emitted entry
comes from one day `d` of the month, is keyed by that day's date string, is
not in the past, and carries exactly the filtered slot list of that day. -/
theorem mem_getMonthAvailability
    {year month : Nat} {avRows : List AvRow} {bookings : List Booking}
    {todayStr : String} {nowMins : Nat} {entry : String × List String}
    (h : entry ∈ getMonthAvailability year month avRows bookings todayStr nowMins) :
    ∃ d, entry.1 = dateStrOf year month d ∧
      jsStrLt (dateStrOf year month d) todayStr = false ∧
      entry.2 = availTimes avRows bookings (monthKeyOf year month) todayStr
        nowMins (dateStrOf year month d) (dayOfWeek year month d) := by
  rcases List.mem_filterMap.mp h with ⟨d, -, hd⟩
  refine ⟨d, ?_⟩
  simp only [dayEntry] at hd
  split at hd
  · exact absurd hd (by simp)
  · next hlt =>
    split at hd
    · exact absurd hd (by simp)
    · rcases Option.some_injective _ hd with rfl
      exact ⟨rfl, by simpa using hlt, rfl⟩

/-- The date keys of `getMonthAvailability` all start with the month key. -/
theorem jsStartsWith_dateStrOf (y m d : Nat) :
    jsStartsWith (dateStrOf y m d) (monthKeyOf y m) = true := by
  unfold jsStartsWith dateStrOf
  have hdata : (monthKeyOf y m ++ "-" ++ pad2 d).data
      = (monthKeyOf y m).data ++ ("-".data ++ (pad2 d).data) := by
    simp
  rw [hdata, List.take_left]
  simp

/-- A slot booked on date `ds` never survives the `availTimes` filters. -/
theorem not_mem_availTimes_of_booked
    {avRows : List AvRow} {bookings : List Booking}
    {monthKey todayStr : String} {nowMins : Nat} {ds t : String} {dow : Nat}
    (hb : isBookedAt bookings monthKey ds t = true) :
    t ∉ availTimes avRows bookings monthKey todayStr nowMins ds dow := by
  intro hin
  unfold availTimes at hin
  have h1 : t ∈ (slotsForDow avRows dow).filter
      (fun s => !isBookedAt bookings monthKey ds s) := by
    split at hin
    · exact List.mem_of_mem_filter hin
    · exact hin
  have := (List.mem_filter.mp h1).2
  rw [hb] at this
  exact absurd this (by simp)

/-- C4 — a slot whose range string equals the trimmed `Time` of a bookings
row whose trimmed `Deposit Status` is neither `Cancelled` nor `Refunded`
never appears in the availability output under that booking's date key. -/
theorem availability_excludes_booked
    (year month : Nat) (avRows : List AvRow) (bookings : List Booking)
    (todayStr : String) (nowMins : Nat) (b : Booking)
    (entry : String × List String)
    (hb : b ∈ bookings)
    (hc : jsTrim b.depositStatus ≠ "Cancelled")
    (hr : jsTrim b.depositStatus ≠ "Refunded")
    (ht : jsTrim b.time ≠ "")
    (hmem : entry ∈ getMonthAvailability year month avRows bookings todayStr nowMins)
    (hdate : jsTrim b.date = entry.1) :
    jsTrim b.time ∉ entry.2 := by
  rcases mem_getMonthAvailability hmem with ⟨d, h1, -, h2⟩
  have hds : jsTrim b.date = dateStrOf year month d := by rw [hdate, h1]
  have hbooked : isBookedAt bookings (monthKeyOf year month)
      (dateStrOf year month d) (jsTrim b.time) = true := by
    rw [isBookedAt, List.any_eq_true]
    refine ⟨b, hb, ?_⟩
    simp [hds, hc, hr, ht, jsStartsWith_dateStrOf]
  rw [h2]
  exact not_mem_availTimes_of_booked hbooked

/-- Witness for C4: template Monday `09:00-10:00` and `11:00-12:00`; a
confirmed booking occupies Monday `09:00-10:00` on `2026-03-09`; querying
March 2026 omits `09:00-10:00` on `2026-03-09` while keeping `11:00-12:00`
there and still offers `09:00-10:00` on the next Monday `2026-03-16`. -/
theorem availability_excludes_booked_witness :
    (⟨"PB-1", "2026-03-09", "09:00-10:00", "Confirmed", "Pending", "", "", "", "500.00"⟩ : Booking)
        ∈ [(⟨"PB-1", "2026-03-09", "09:00-10:00", "Confirmed", "Pending", "", "", "", "500.00"⟩ : Booking)] ∧
    ("2026-03-09", ["11:00-12:00"]) ∈ getMonthAvailability 2026 3
        [⟨"YES", "Monday", "09:00-10:00"⟩, ⟨"YES", "Monday", "11:00-12:00"⟩]
        [⟨"PB-1", "2026-03-09", "09:00-10:00", "Confirmed", "Pending", "", "", "", "500.00"⟩]
        "2026-03-01" 0 ∧
    "09:00-10:00" ∉ ["11:00-12:00"] ∧
    ("2026-03-16", ["09:00-10:00", "11:00-12:00"]) ∈ getMonthAvailability 2026 3
        [⟨"YES", "Monday", "09:00-10:00"⟩, ⟨"YES", "Monday", "11:00-12:00"⟩]
        [⟨"PB-1", "2026-03-09", "09:00-10:00", "Confirmed", "Pending", "", "", "", "500.00"⟩]
        "2026-03-01" 0 := by
  refine ⟨by decide, by decide, ?_, by decide⟩
  have h := availability_excludes_booked 2026 3
    [⟨"YES", "Monday", "09:00-10:00"⟩, ⟨"YES", "Monday", "11:00-12:00"⟩]
    [⟨"PB-1", "2026-03-09", "09:00-10:00", "Confirmed", "Pending", "", "", "", "500.00"⟩]
    "2026-03-01" 0
    ⟨"PB-1", "2026-03-09", "09:00-10:00", "Confirmed", "Pending", "", "", "", "500.00"⟩
    ("2026-03-09", ["11:00-12:00"])
    (by decide) (by decide) (by decide) (by decide) (by decide) (by decide)
  exact h

/-- C5 — no date key emitted by `getMonthAvailability` is strictly before
the current SAST civil date (`sastNow().dateStr`). -/
theorem availability_no_past_dates
    (year month : Nat) (avRows : List AvRow) (bookings : List Booking)
    (todayStr : String) (nowMins : Nat) (entry : String × List String)
    (h : entry ∈ getMonthAvailability year month avRows bookings todayStr nowMins) :
    jsStrLt entry.1 todayStr = false := by
  rcases mem_getMonthAvailability h with ⟨d, h1, h2, -⟩
  rw [h1]
  exact h2

/-- Witness for C5: with today `2026-03-05`, the key `2026-03-09` is emitted
and is not before today. -/
theorem availability_no_past_dates_witness :
    ("2026-03-09", ["09:00-10:00"]) ∈ getMonthAvailability 2026 3
        [⟨"YES", "Monday", "09:00-10:00"⟩] [] "2026-03-05" 0 ∧
    jsStrLt "2026-03-09" "2026-03-05" = false := by
  refine ⟨by decide, ?_⟩
  have h := availability_no_past_dates 2026 3
    [⟨"YES", "Monday", "09:00-10:00"⟩] [] "2026-03-05" 0
    ("2026-03-09", ["09:00-10:00"]) (by decide)
  exact h

/-- C6 — the entry for today's date never contains a slot whose start time,
in integer minutes since midnight, has already elapsed relative to the
current SAST time of day. -/
theorem availability_today_excludes_elapsed
    (year month : Nat) (avRows : List AvRow) (bookings : List Booking)
    (todayStr : String) (nowMins : Nat) (entry : String × List String)
    (slot : String) (v : Nat)
    (hmem : entry ∈ getMonthAvailability year month avRows bookings todayStr nowMins)
    (hk : entry.1 = todayStr)
    (hs : slot ∈ entry.2)
    (hv : startMins slot = some v) :
    nowMins < v := by
  rcases mem_getMonthAvailability hmem with ⟨d, h1, -, h2⟩
  rw [h2] at hs
  unfold availTimes at hs
  rw [← h1, hk] at hs
  simp only [beq_self_eq_true, if_true] at hs
  have hok := (List.mem_filter.mp hs).2
  rw [startOkAfter, hv] at hok
  simpa using hok

/-- Witness for C6: at `2026-03-09` 10:00 SAST (600 minutes), the surviving
slot `11:00-12:00` on today's entry starts at 660 minutes, after now. -/
theorem availability_today_excludes_elapsed_witness :
    ("2026-03-09", ["11:00-12:00"]) ∈ getMonthAvailability 2026 3
        [⟨"YES", "Monday", "09:00-10:00"⟩, ⟨"YES", "Monday", "11:00-12:00"⟩] []
        "2026-03-09" 600 ∧
    startMins "11:00-12:00" = some 660 ∧
    600 < 660 := by
  refine ⟨by decide, by decide, ?_⟩
  exact availability_today_excludes_elapsed 2026 3
    [⟨"YES", "Monday", "09:00-10:00"⟩, ⟨"YES", "Monday", "11:00-12:00"⟩] []
    "2026-03-09" 600 ("2026-03-09", ["11:00-12:00"]) "11:00-12:00" 660
    (by decide) rfl (by decide) (by decide)

/-! ## Payment webhook processor (`POST /api/webhook/yoco`)

The processing stage after signature verification, embedded as a function of
the incoming event, the bookings row found for the event's correlation id,
and an environment describing the outcome of the external calls the handler
makes (calendar creation result, success of each `row.save()`).  Emails are
dispatched with `.catch(...)` in the source and can never fail the handler;
they are tallied as effects. -/

/-- JavaScript `a || b` on an optional string and a string default. -/
def jsOrS (a : Option String) (b : String) : String :=
  match a with
  | some x => if x == "" then b else x
  | none => b

/-- The extracted fields of a Yoco webhook event: `event.type`,
`payment.status`, `payment.id`, `meta.bookingId || ''` and `meta.type`
(`payment = event.payload || event`, `meta = payment.metadata || {}`). -/
structure WebhookEvent where
  type : String
  payloadStatus : Option String
  paymentId : Option String
  metaBookingId : String
  metaType : Option String
  deriving DecidableEq

/-- The `successTypes` allow-list of the webhook handler. -/
def successTypes : List String :=
  ["payment.succeeded", "payment.approved", "payment_approved",
   "payment.captured", "payment_captured"]

/-- Embeds `payment.status && payment.status !== 'succeeded'` — the guard that
discards events with a non-succeeded payment status. -/
def statusBlocked (ps : Option String) : Bool :=
  match ps with
  | some st => st != "" && st != "succeeded"
  | none => false

/-- Side-effect tally of one request: attempted `row.save()` calls,
`calCreate` calls, and each kind of notification dispatch. -/
structure Effects where
  rowSaves : Nat := 0
  calendarCreates : Nat := 0
  adminEmails : Nat := 0
  customerEmails : Nat := 0
  rebookEmails : Nat := 0
  balanceEmails : Nat := 0
  checkoutCalls : Nat := 0
  deriving DecidableEq

/-- Environment of one webhook delivery: what `calCreate` returns (the source
helper catches its own errors and returns `null` on failure), and whether the
`i`-th `await row.save()` of the handler commits or throws. -/
structure WebhookEnv where
  calCreateResult : Option String
  saveOk : Nat → Bool

/-- Outcome of one webhook delivery: the HTTP status sent, the bookings row
as committed in the store afterwards, and the side-effect tally. -/
structure WebhookResult where
  httpStatus : Nat
  stored : Option Booking
  eff : Effects
  deriving DecidableEq

/-- The event-processing stage of `POST /api/webhook/yoco` (v5.2), after
signature verification: classify against `successTypes`, discard non-succeeded
or uncorrelated events with 200, then drive the deposit or balance transition
idempotently; a throwing `row.save()` is caught by the surrounding
`try`/`catch`, which answers 500. -/
def processYocoWebhook (env : WebhookEnv) (ev : WebhookEvent)
    (row? : Option Booking) : WebhookResult :=
  if !(successTypes.contains ev.type) then ⟨200, row?, {}⟩
  else if statusBlocked ev.payloadStatus then ⟨200, row?, {}⟩
  else if ev.metaBookingId == "" then ⟨200, row?, {}⟩
  else
    match row? with
    | none => ⟨200, none, {}⟩
    | some r =>
      if ev.metaType.getD "deposit" == "balance" then
        if r.balanceStatus == "Paid" then ⟨200, some r, {}⟩
        else
          let r1 := { r with balanceStatus := "Paid" }
          if env.saveOk 0 then
            ⟨200, some r1, { rowSaves := 1, rebookEmails := 1, adminEmails := 1 }⟩
          else ⟨500, some r, { rowSaves := 1 }⟩
      else
        if r.depositStatus == "Confirmed" then ⟨200, some r, {}⟩
        else
          let r1 := { r with depositStatus := "Confirmed",
                             yocoCheckoutId := jsOrS ev.paymentId r.yocoCheckoutId }
          if env.saveOk 0 then
            match env.calCreateResult with
            | some calId =>
              let r2 := { r1 with calendarEventId := calId }
              if env.saveOk 1 then
                ⟨200, some r2,
                 { rowSaves := 2, calendarCreates := 1, adminEmails := 1,
                   customerEmails := 1 }⟩
              else ⟨500, some r1, { rowSaves := 2, calendarCreates := 1 }⟩
            | none =>
              ⟨200, some r1,
               { rowSaves := 1, calendarCreates := 1, adminEmails := 1,
                 customerEmails := 1 }⟩
          else ⟨500, some r, { rowSaves := 1 }⟩

/-- C2 — delivering the same deposit-approved webhook twice is idempotent:
the first delivery answers 200, moves `Deposit Status` from `Pending Payment`
to `Confirmed`, makes exactly one `calCreate` call and one customer
confirmation (and one admin notification); redelivering the same event
against the resulting store answers 200 with the row unchanged and a zero
side-effect tally. -/
theorem webhook_deposit_idempotent
    (env1 env2 : WebhookEnv) (ev : WebhookEvent) (r : Booking)
    (htype : successTypes.contains ev.type = true)
    (hstatus : statusBlocked ev.payloadStatus = false)
    (hbid : ev.metaBookingId ≠ "")
    (hkind : ev.metaType.getD "deposit" ≠ "balance")
    (hpending : r.depositStatus = "Pending Payment")
    (hsave : ∀ i, env1.saveOk i = true) :
    (processYocoWebhook env1 ev (some r)).httpStatus = 200 ∧
    (∃ r1, (processYocoWebhook env1 ev (some r)).stored = some r1 ∧
        r1.depositStatus = "Confirmed") ∧
    (processYocoWebhook env1 ev (some r)).eff.calendarCreates = 1 ∧
    (processYocoWebhook env1 ev (some r)).eff.customerEmails = 1 ∧
    (processYocoWebhook env1 ev (some r)).eff.adminEmails = 1 ∧
    (processYocoWebhook env2 ev
        ((processYocoWebhook env1 ev (some r)).stored)).httpStatus = 200 ∧
    (processYocoWebhook env2 ev
        ((processYocoWebhook env1 ev (some r)).stored)).stored
      = (processYocoWebhook env1 ev (some r)).stored ∧
    (processYocoWebhook env2 ev
        ((processYocoWebhook env1 ev (some r)).stored)).eff = {} := by
  have hmem : ev.type ∈ successTypes := by simpa using htype
  have hconf : (r.depositStatus == "Confirmed") = false := by
    simp [hpending]
  cases hc : env1.calCreateResult with
  | some calId =>
    have h1 : processYocoWebhook env1 ev (some r)
        = ⟨200, some { r with depositStatus := "Confirmed",
                              yocoCheckoutId := jsOrS ev.paymentId r.yocoCheckoutId,
                              calendarEventId := calId },
           { rowSaves := 2, calendarCreates := 1, adminEmails := 1,
             customerEmails := 1 }⟩ := by
      simp [processYocoWebhook, hmem, hstatus, hbid, hkind, hconf, hsave, hc]
    have h2 : processYocoWebhook env2 ev
        ((processYocoWebhook env1 ev (some r)).stored)
        = ⟨200, (processYocoWebhook env1 ev (some r)).stored, {}⟩ := by
      rw [h1]
      simp [processYocoWebhook, hmem, hstatus, hbid, hkind]
    rw [h2, h1]
    exact ⟨rfl, ⟨_, rfl, rfl⟩, rfl, rfl, rfl, rfl, rfl, rfl⟩
  | none =>
    have h1 : processYocoWebhook env1 ev (some r)
        = ⟨200, some { r with depositStatus := "Confirmed",
                              yocoCheckoutId := jsOrS ev.paymentId r.yocoCheckoutId },
           { rowSaves := 1, calendarCreates := 1, adminEmails := 1,
             customerEmails := 1 }⟩ := by
      simp [processYocoWebhook, hmem, hstatus, hbid, hkind, hconf, hsave, hc]
    have h2 : processYocoWebhook env2 ev
        ((processYocoWebhook env1 ev (some r)).stored)
        = ⟨200, (processYocoWebhook env1 ev (some r)).stored, {}⟩ := by
      rw [h1]
      simp [processYocoWebhook, hmem, hstatus, hbid, hkind]
    rw [h2, h1]
    exact ⟨rfl, ⟨_, rfl, rfl⟩, rfl, rfl, rfl, rfl, rfl, rfl⟩

/-- First-delivery environment for the C2 witness: calendar creation
succeeds, every row save commits. -/
def wEnv1 : WebhookEnv := ⟨some "cal_1", fun _ => true⟩

/-- Second-delivery environment for the C2 witness. -/
def wEnv2 : WebhookEnv := ⟨none, fun _ => true⟩

/-- The deposit-approved event of the C2 witness. -/
def wEv : WebhookEvent := ⟨"payment.approved", some "succeeded", some "ch_1", "PB-1", none⟩

/-- The pending booking row of the C2 witness. -/
def wRow : Booking :=
  ⟨"PB-1", "2026-03-09", "09:00-10:00", "Pending Payment", "Pending", "", "", "", "500.00"⟩

/-- Witness for C2: a concrete deposit-approved event delivered twice. -/
theorem webhook_deposit_idempotent_witness :
    (processYocoWebhook wEnv1 wEv (some wRow)).httpStatus = 200 ∧
    (∃ r1, (processYocoWebhook wEnv1 wEv (some wRow)).stored = some r1 ∧
        r1.depositStatus = "Confirmed") ∧
    (processYocoWebhook wEnv1 wEv (some wRow)).eff.calendarCreates = 1 ∧
    (processYocoWebhook wEnv1 wEv (some wRow)).eff.customerEmails = 1 ∧
    (processYocoWebhook wEnv1 wEv (some wRow)).eff.adminEmails = 1 ∧
    (processYocoWebhook wEnv2 wEv
        ((processYocoWebhook wEnv1 wEv (some wRow)).stored)).httpStatus = 200 ∧
    (processYocoWebhook wEnv2 wEv
        ((processYocoWebhook wEnv1 wEv (some wRow)).stored)).stored
      = (processYocoWebhook wEnv1 wEv (some wRow)).stored ∧
    (processYocoWebhook wEnv2 wEv
        ((processYocoWebhook wEnv1 wEv (some wRow)).stored)).eff = {} :=
  webhook_deposit_idempotent wEnv1 wEnv2 wEv wRow (by decide) (by decide)
    (by decide) (by decide) rfl (fun _ => rfl)

/-- C3 — once an event passes classification (allow-listed success type,
non-blocked payment status, nonempty correlation id) and the booking exists:
if the state-mutating `row.save()` throws, the handler answers 500 with the
store unchanged; and whenever it answers 200, the stored row actually carries
the target state (`Confirmed` deposit, resp. `Paid` balance) — success is
never reported for a mutation that did not happen. -/
theorem webhook_no_false_success
    (env : WebhookEnv) (ev : WebhookEvent) (r : Booking)
    (htype : successTypes.contains ev.type = true)
    (hstatus : statusBlocked ev.payloadStatus = false)
    (hbid : ev.metaBookingId ≠ "") :
    (ev.metaType.getD "deposit" ≠ "balance" →
      ((r.depositStatus ≠ "Confirmed" → env.saveOk 0 = false →
          (processYocoWebhook env ev (some r)).httpStatus = 500 ∧
          (processYocoWebhook env ev (some r)).stored = some r) ∧
       ((processYocoWebhook env ev (some r)).httpStatus = 200 →
          ∃ r1, (processYocoWebhook env ev (some r)).stored = some r1 ∧
            r1.depositStatus = "Confirmed"))) ∧
    (ev.metaType.getD "deposit" = "balance" →
      ((r.balanceStatus ≠ "Paid" → env.saveOk 0 = false →
          (processYocoWebhook env ev (some r)).httpStatus = 500 ∧
          (processYocoWebhook env ev (some r)).stored = some r) ∧
       ((processYocoWebhook env ev (some r)).httpStatus = 200 →
          ∃ r1, (processYocoWebhook env ev (some r)).stored = some r1 ∧
            r1.balanceStatus = "Paid"))) := by
  have hmem : ev.type ∈ successTypes := by simpa using htype
  constructor
  · intro hkind
    by_cases hcf : r.depositStatus = "Confirmed"
    · have h1 : processYocoWebhook env ev (some r) = ⟨200, some r, {}⟩ := by
        simp [processYocoWebhook, hmem, hstatus, hbid, hkind, hcf]
      exact ⟨fun hne _ => absurd hcf hne, fun _ => ⟨r, by rw [h1], hcf⟩⟩
    · have hconf : (r.depositStatus == "Confirmed") = false := by simp [hcf]
      by_cases hs0 : env.saveOk 0 = true
      · refine ⟨fun _ hs0f => absurd (hs0f ▸ hs0) (by simp), fun h200 => ?_⟩
        cases hc : env.calCreateResult with
        | some calId =>
          by_cases hs1 : env.saveOk 1 = true
          · have h1 : processYocoWebhook env ev (some r)
                = ⟨200, some { r with
                                depositStatus := "Confirmed",
                                yocoCheckoutId := jsOrS ev.paymentId r.yocoCheckoutId,
                                calendarEventId := calId },
                   { rowSaves := 2, calendarCreates := 1, adminEmails := 1,
                     customerEmails := 1 }⟩ := by
              simp [processYocoWebhook, hmem, hstatus, hbid, hkind, hconf,
                hs0, hc, hs1]
            exact ⟨_, by rw [h1], rfl⟩
          · have hs1' : env.saveOk 1 = false := by simpa using hs1
            have h1 : processYocoWebhook env ev (some r)
                = ⟨500, some { r with
                                depositStatus := "Confirmed",
                                yocoCheckoutId := jsOrS ev.paymentId r.yocoCheckoutId },
                   { rowSaves := 2, calendarCreates := 1 }⟩ := by
              simp [processYocoWebhook, hmem, hstatus, hbid, hkind, hconf,
                hs0, hc, hs1']
            rw [h1] at h200
            exact absurd h200 (by simp)
        | none =>
          have h1 : processYocoWebhook env ev (some r)
              = ⟨200, some { r with
                              depositStatus := "Confirmed",
                              yocoCheckoutId := jsOrS ev.paymentId r.yocoCheckoutId },
                 { rowSaves := 1, calendarCreates := 1, adminEmails := 1,
                   customerEmails := 1 }⟩ := by
            simp [processYocoWebhook, hmem, hstatus, hbid, hkind, hconf, hs0, hc]
          exact ⟨_, by rw [h1], rfl⟩
      · have hs0' : env.saveOk 0 = false := by simpa using hs0
        have h1 : processYocoWebhook env ev (some r)
            = ⟨500, some r, { rowSaves := 1 }⟩ := by
          simp [processYocoWebhook, hmem, hstatus, hbid, hkind, hconf, hs0']
        refine ⟨fun _ _ => by rw [h1]; exact ⟨rfl, rfl⟩, fun h200 => ?_⟩
        rw [h1] at h200
        exact absurd h200 (by simp)
  · intro hkind
    by_cases hpd : r.balanceStatus = "Paid"
    · have h1 : processYocoWebhook env ev (some r) = ⟨200, some r, {}⟩ := by
        simp [processYocoWebhook, hmem, hstatus, hbid, hkind, hpd]
      exact ⟨fun hne _ => absurd hpd hne, fun _ => ⟨r, by rw [h1], hpd⟩⟩
    · have hpaid : (r.balanceStatus == "Paid") = false := by simp [hpd]
      by_cases hs0 : env.saveOk 0 = true
      · have h1 : processYocoWebhook env ev (some r)
            = ⟨200, some { r with balanceStatus := "Paid" },
               { rowSaves := 1, rebookEmails := 1, adminEmails := 1 }⟩ := by
          simp [processYocoWebhook, hmem, hstatus, hbid, hkind, hpaid, hs0]
        exact ⟨fun _ hs0f => absurd (hs0f ▸ hs0) (by simp),
          fun _ => ⟨_, by rw [h1], rfl⟩⟩
      · have hs0' : env.saveOk 0 = false := by simpa using hs0
        have h1 : processYocoWebhook env ev (some r)
            = ⟨500, some r, { rowSaves := 1 }⟩ := by
          simp [processYocoWebhook, hmem, hstatus, hbid, hkind, hpaid, hs0']
        refine ⟨fun _ _ => by rw [h1]; exact ⟨rfl, rfl⟩, fun h200 => ?_⟩
        rw [h1] at h200
        exact absurd h200 (by simp)

/-- Failing-save environment for the C3 witness. -/
def wEnvFail : WebhookEnv := ⟨none, fun _ => false⟩

/-- The deposit-succeeded event of the C3 witness. -/
def wEv3 : WebhookEvent := ⟨"payment.succeeded", none, none, "PB-2", none⟩

/-- The pending booking row of the C3 witness. -/
def wRow3 : Booking :=
  ⟨"PB-2", "2026-04-01", "11:00-12:00", "Pending Payment", "Pending", "", "", "", "300.00"⟩

/-- Witness for C3: with a throwing `row.save()`, the concrete delivery
answers 500 and leaves the stored row untouched. -/
theorem webhook_no_false_success_witness :
    (processYocoWebhook wEnvFail wEv3 (some wRow3)).httpStatus = 500 ∧
    (processYocoWebhook wEnvFail wEv3 (some wRow3)).stored = some wRow3 :=
  ((webhook_no_false_success wEnvFail wEv3 wRow3 (by decide) (by decide)
      (by decide)).1 (by decide)).1 (by decide) rfl

/-! ## Admin authentication (`makeAdminToken` / `adminOnly`)

`makeAdminToken(password)` is the lowercase-hex HMAC-SHA256 of the password
under the server-held `ADMIN_TOKEN_SECRET`; it is modelled by an abstract
function `hmac : String → String` about which the theorems assume only what
is true of hex digests: 64 characters, no surrounding whitespace. -/

/-- JavaScript `s.padEnd(64, '0')`. -/
def padEnd64 (s : String) : String :=
  if s.length < 64 then s ++ ⟨List.replicate (64 - s.length) '0'⟩ else s

/-- The `adminOnly` middleware decision: trim the `X-Admin-Token` header,
reject outright unless it has 64 characters, then compare (in constant time
over the 0-padded 64-byte buffers) against the HMAC of the currently stored
`admin_password` setting, requiring that setting to be truthy. -/
def adminOnlyAccepts (hmac : String → String) (adminPassword header : String) :
    Bool :=
  let token := jsTrim header
  if token.length != 64 then false
  else
    let expected := hmac adminPassword
    adminPassword != "" && (token.length == expected.length)
      && (padEnd64 token == padEnd64 expected)

/-- Padding with `padEnd64` leaves 64-character strings unchanged. -/
theorem padEnd64_of_len64 {s : String} (h : s.length = 64) : padEnd64 s = s := by
  simp [padEnd64, h]

/-- Dropping whitespace is the identity on whitespace-free character lists. -/
theorem dropWhile_isWs_eq_self {l : List Char}
    (h : l.all (fun c => !isWs c) = true) : l.dropWhile isWs = l := by
  cases l with
  | nil => rfl
  | cons a as =>
    have ha : isWs a = false := by
      simp [List.all_cons] at h
      simpa using h.1
    simp [List.dropWhile_cons, ha]

/-- Trimming is the identity on whitespace-free strings. -/
theorem jsTrim_eq_self {s : String}
    (h : s.data.all (fun c => !isWs c) = true) : jsTrim s = s := by
  show (⟨trimChars s.data⟩ : String) = s
  rw [trimChars, dropWhile_isWs_eq_self h,
    dropWhile_isWs_eq_self (by simpa [List.all_reverse] using h),
    List.reverse_reverse]

/-- C8 — `adminOnly` accepts a presented header iff the stored
`admin_password` is nonempty and the trimmed 64-character token equals the
HMAC of that currently stored password; consequently a token minted for a
different (old) password whose digest differs is rejected, with no
revocation state involved. -/
theorem admin_token_validity
    (hmac : String → String) (adminPassword header oldPassword : String)
    (hlen : ∀ p, (hmac p).length = 64)
    (hws : ∀ p, (hmac p).data.all (fun c => !isWs c) = true) :
    (adminOnlyAccepts hmac adminPassword header = true ↔
      adminPassword ≠ "" ∧ jsTrim header = hmac adminPassword) ∧
    (hmac oldPassword ≠ hmac adminPassword →
      adminOnlyAccepts hmac adminPassword (hmac oldPassword) = false) := by
  have hiff : ∀ hd : String, adminOnlyAccepts hmac adminPassword hd = true ↔
      adminPassword ≠ "" ∧ jsTrim hd = hmac adminPassword := by
    intro hd
    by_cases hl : (jsTrim hd).length = 64
    · have hg : ((jsTrim hd).length != 64) = false := by simp [hl]
      have hpe1 : padEnd64 (jsTrim hd) = jsTrim hd := padEnd64_of_len64 hl
      have hpe2 : padEnd64 (hmac adminPassword) = hmac adminPassword :=
        padEnd64_of_len64 (hlen _)
      simp [adminOnlyAccepts, hg, hpe1, hpe2, hl, hlen]
    · have hg : ((jsTrim hd).length != 64) = true := by simpa using hl
      simp only [adminOnlyAccepts, hg, if_true, Bool.false_eq_true, false_iff]
      rintro ⟨-, heq⟩
      exact hl (heq ▸ hlen adminPassword)
  refine ⟨hiff header, fun hne => ?_⟩
  cases hacc : adminOnlyAccepts hmac adminPassword (hmac oldPassword) with
  | false => rfl
  | true =>
    rcases (hiff (hmac oldPassword)).mp hacc with ⟨-, heq⟩
    rw [jsTrim_eq_self (hws oldPassword)] at heq
    exact absurd heq hne

/-- Stand-in digest function for the C8 witness: maps `"a"` to 64 `'a'`s and
everything else to 64 `'b'`s — 64 characters, whitespace-free, and the two
relevant digests differ. -/
def hmacW (s : String) : String :=
  if s == "a" then ⟨List.replicate 64 'a'⟩ else ⟨List.replicate 64 'b'⟩

/-- Witness for C8: under password `"b"`, the token minted for the old
password `"a"` is rejected and the token minted for `"b"` is accepted. -/
theorem admin_token_validity_witness :
    hmacW "a" ≠ hmacW "b" ∧
    adminOnlyAccepts hmacW "b" (hmacW "a") = false ∧
    adminOnlyAccepts hmacW "b" (hmacW "b") = true := by
  have hlen : ∀ p, (hmacW p).length = 64 := by
    intro p; unfold hmacW; split <;> decide
  have hws : ∀ p, (hmacW p).data.all (fun c => !isWs c) = true := by
    intro p; unfold hmacW; split <;> decide
  refine ⟨by decide, ?_, ?_⟩
  · exact (admin_token_validity hmacW "b" (hmacW "a") "a" hlen hws).2 (by decide)
  · exact (admin_token_validity hmacW "b" (hmacW "b") "a" hlen hws).1.mpr
      ⟨by decide, by decide⟩

/-! ## Public configuration (`GET /api?action=getConfig`) -/

/-- The response of `getConfig`: exactly the three whitelisted settings, with
the `||` fallbacks of the source. -/
structure ConfigResponse where
  deposit_percent : String
  google_maps_api_key : String
  app_base_url : String
  deriving DecidableEq

/-- Embeds `getConfig` over a settings map (`none` = key absent from the Settings
sheet). -/
def getConfig (settings : String → Option String) : ConfigResponse :=
  { deposit_percent := jsOrS (settings "deposit_percent") "50",
    google_maps_api_key := jsOrS (settings "google_maps_api_key") "",
    app_base_url := jsOrS (settings "app_base_url") "" }

/-- C10 — `getConfig` depends on nothing but the three whitelisted settings:
any two settings maps that agree on `deposit_percent`, `google_maps_api_key`
and `app_base_url` produce identical responses, so no other setting
(`yoco_secret_key`, `smtp_pass`, `admin_password`, …) flows into the
output. -/
theorem getConfig_noninterference
    (s1 s2 : String → Option String)
    (h1 : s1 "deposit_percent" = s2 "deposit_percent")
    (h2 : s1 "google_maps_api_key" = s2 "google_maps_api_key")
    (h3 : s1 "app_base_url" = s2 "app_base_url") :
    getConfig s1 = getConfig s2 := by
  simp [getConfig, h1, h2, h3]

/-- First settings map of the C10 witness. -/
def wSettings1 : String → Option String := fun k =>
  if k == "deposit_percent" then some "50"
  else if k == "yoco_secret_key" then some "sk_live_one"
  else if k == "smtp_pass" then some "hunter2"
  else if k == "admin_password" then some "pw1"
  else none

/-- Second settings map of the C10 witness: every secret changed, the three
public keys untouched. -/
def wSettings2 : String → Option String := fun k =>
  if k == "deposit_percent" then some "50"
  else if k == "yoco_secret_key" then some "sk_live_two"
  else if k == "smtp_pass" then some "hunter3"
  else if k == "admin_password" then some "pw2"
  else none

/-- Witness for C10: changing `yoco_secret_key`, `smtp_pass` and
`admin_password` leaves the `getConfig` response unchanged. -/
theorem getConfig_noninterference_witness :
    wSettings1 "yoco_secret_key" ≠ wSettings2 "yoco_secret_key" ∧
    wSettings1 "admin_password" ≠ wSettings2 "admin_password" ∧
    getConfig wSettings1 = getConfig wSettings2 :=
  ⟨by decide, by decide,
    getConfig_noninterference wSettings1 wSettings2 (by decide) (by decide)
      (by decide)⟩

/-! ## Webhook signature verification (`POST /api/webhook/yoco`, v5.2)

`express.json({ verify: ... })` stores the exact request-body bytes in
`req.rawBody` before JSON parsing; the handler then verifies
`rawBody ? rawBody.toString('utf8') : JSON.stringify(req.body)` with the
svix library. -/

/-- The payload string handed to the verifier:
`req.rawBody ? req.rawBody.toString('utf8') : JSON.stringify(req.body)`. -/
def webhookVerifyPayload (rawBody? : Option String) (reserializedBody : String) :
    String :=
  match rawBody? with
  | some raw => raw
  | none => reserializedBody

/-- Modelled from the spec: the svix `Webhook.verify` call (the svix library
itself is an external dependency, not part of this repository's sources) —
authenticity is checked with a constant-time comparison of the presented
signature against an HMAC of the payload bytes under the shared secret; the
constant-time comparison is modelled functionally as equality. -/
def svixVerify (hmac : String → String → String) (secret payload sig : String) :
    Bool :=
  sig == hmac secret payload

/-- The signature-verification stage of `POST /api/webhook/yoco`: with no
configured secret the handler warns loudly and accepts unverified; otherwise
it verifies the captured payload. -/
def yocoWebhookSignatureOk (hmac : String → String → String) (secret : String)
    (rawBody? : Option String) (reserializedBody sig : String) : Bool :=
  if secret == "" then true
  else svixVerify hmac secret (webhookVerifyPayload rawBody? reserializedBody) sig

/-- C7 — while a signing secret is configured and the raw bytes were captured,
verification accepts exactly the HMAC of those raw wire bytes, and its verdict
is independent of any re-serialization of the parsed body. -/
theorem webhook_signature_over_raw_bytes
    (hmac : String → String → String) (secret raw sig reser : String)
    (hsec : secret ≠ "") :
    (yocoWebhookSignatureOk hmac secret (some raw) reser sig = true ↔
      sig = hmac secret raw) ∧
    (∀ reser2, yocoWebhookSignatureOk hmac secret (some raw) reser sig
        = yocoWebhookSignatureOk hmac secret (some raw) reser2 sig) := by
  have h : (secret == "") = false := by simp [hsec]
  constructor
  · simp [yocoWebhookSignatureOk, svixVerify, webhookVerifyPayload, h]
  · intro reser2
    simp [yocoWebhookSignatureOk, svixVerify, webhookVerifyPayload, h]

/-- Witness for C7: the wire bytes `"p: 1"` and the re-serialized copy
`"p:1"` differ, yet the signature over the wire bytes verifies. -/
theorem webhook_signature_over_raw_bytes_witness :
    ("whsec" : String) ≠ "" ∧
    ("p: 1" : String) ≠ "p:1" ∧
    yocoWebhookSignatureOk (fun sec pl => sec ++ "." ++ pl) "whsec"
      (some "p: 1") "p:1" ("whsec" ++ "." ++ "p: 1") = true :=
  ⟨by decide, by decide,
    (webhook_signature_over_raw_bytes (fun sec pl => sec ++ "." ++ pl) "whsec"
        "p: 1" ("whsec" ++ "." ++ "p: 1") "p:1" (by decide)).1.mpr rfl⟩

/-! ## Admin status transitions (`POST /api/admin/update-status`) -/

/-- JavaScript `parseFloat` on the strings the balance parser feeds it:
optional sign, an integer part and/or a `.`-separated fraction part,
trailing junk ignored; `none` models `NaN`. -/
def jsParseFloat (s : String) : Option ℚ :=
  let l := s.data
  let signAndRest : ℚ × List Char :=
    match l with
    | '-' :: rest => (-1, rest)
    | '+' :: rest => (1, rest)
    | _ => (1, l)
  let sign := signAndRest.1
  let l1 := signAndRest.2
  let ip := l1.takeWhile Char.isDigit
  let l2 := l1.dropWhile Char.isDigit
  let ipVal : ℚ := ip.foldl (fun a c => a * 10 + ((c.toNat - 48 : Nat) : ℚ)) 0
  match l2 with
  | '.' :: rest =>
    let fp := rest.takeWhile Char.isDigit
    let fpVal : ℚ := fp.foldr (fun c a => (((c.toNat - 48 : Nat) : ℚ) + a) / 10) 0
    if ip.isEmpty && fp.isEmpty then none else some (sign * (ipVal + fpVal))
  | _ => if ip.isEmpty then none else some (sign * ipVal)

/-- Embeds `parseFloat((row.get('Balance Due (R)') || '').replace(/[R\s]/g, '')) || 0`
— the balance-due parser of the admin routes. -/
def parseBalance (s : String) : ℚ :=
  let stripped : String := ⟨s.data.filter (fun c => c != 'R' && !isWs c)⟩
  match jsParseFloat stripped with
  | some v => v
  | none => 0

/-- The `VALID_STATUSES` allow-list of `POST /api/admin/update-status`. -/
def VALID_STATUSES : List String :=
  ["Pending Payment", "Confirmed", "Service Complete", "Cancelled", "Refunded"]

/-- Environment of one `update-status` request: whether `yoco_secret_key` is
configured, the `redirectUrl` the Yoco checkout call would return, the
cleaned `yoco_payment_page_slug` (`""` = unset), and the `calCreate`
result. -/
structure AdminEnv where
  hasYocoKey : Bool
  checkoutRedirect : Option String
  slug : String
  calCreateResult : Option String

/-- Outcome of one `update-status` request. -/
structure UpdateResult where
  httpStatus : Nat
  stored : Option Booking
  eff : Effects
  deriving DecidableEq

/-- The slug-based fallback payment URL `https://pay.yoco.com/slug?...`
(query parameters elided — they never influence control flow). -/
def slugPaymentUrl (slug : String) : String := "https://pay.yoco.com/" ++ slug

/-- Embeds `POST /api/admin/update-status` (v5.2) after authentication: validate the
target status, write it, then run the manual-confirm side effects and the
Service-Complete balance-request flow.  Saves are modelled as committing
(the claim under verification concerns the successful path). -/
def updateStatus (env : AdminEnv) (status : String) (row? : Option Booking) :
    UpdateResult :=
  if !(VALID_STATUSES.contains status) then ⟨400, row?, {}⟩
  else
    match row? with
    | none => ⟨404, none, {}⟩
    | some r =>
      let prev := r.depositStatus
      let r1 := { r with depositStatus := status }
      let afterConfirm : Booking × Effects :=
        if status == "Confirmed" && r1.calendarEventId == "" then
          let withCal : Booking × Effects :=
            match env.calCreateResult with
            | some calId =>
              ({ r1 with calendarEventId := calId },
               { rowSaves := 2, calendarCreates := 1 })
            | none => (r1, { rowSaves := 1, calendarCreates := 1 })
          if prev != "Confirmed" then
            (withCal.1, { withCal.2 with adminEmails := 1, customerEmails := 1 })
          else withCal
        else (r1, { rowSaves := 1 })
      let r2 := afterConfirm.1
      let effA := afterConfirm.2
      if status == "Service Complete" && prev != "Service Complete" then
        let bal := parseBalance r2.balanceDue
        if 2 ≤ bal ∧ r2.balanceStatus ≠ "Paid" ∧ r2.balanceStatus ≠ "Requested" then
          let checkout : Option String × Effects :=
            if env.hasYocoKey then
              (env.checkoutRedirect,
               { effA with checkoutCalls := effA.checkoutCalls + 1 })
            else (none, effA)
          let effB := checkout.2
          let paymentUrl? : Option String :=
            match checkout.1 with
            | some u => some u
            | none => if env.slug != "" then some (slugPaymentUrl env.slug) else none
          match paymentUrl? with
          | some u =>
            ⟨200, some { r2 with balanceStatus := "Requested", yocoLink := u },
             { effB with rowSaves := effB.rowSaves + 1,
                         balanceEmails := effB.balanceEmails + 1 }⟩
          | none => ⟨200, some r2, effB⟩
        else ⟨200, some r2, effA⟩
      else ⟨200, some r2, effA⟩

/-- C9 — transitioning a booking to `Service Complete` while the parsed
balance due is below the R2 minimum payable threshold succeeds (200, status
written), leaves the Balance Status `Pending` and the payment link untouched,
makes no checkout call and dispatches no balance-request notification. -/
theorem service_complete_below_threshold
    (env : AdminEnv) (r : Booking)
    (hbal : parseBalance r.balanceDue < 2)
    (hpending : r.balanceStatus = "Pending") :
    (updateStatus env "Service Complete" (some r)).httpStatus = 200 ∧
    (updateStatus env "Service Complete" (some r)).stored
      = some { r with depositStatus := "Service Complete" } ∧
    ({ r with depositStatus := "Service Complete" } : Booking).balanceStatus
      = "Pending" ∧
    ({ r with depositStatus := "Service Complete" } : Booking).yocoLink
      = r.yocoLink ∧
    (updateStatus env "Service Complete" (some r)).eff.checkoutCalls = 0 ∧
    (updateStatus env "Service Complete" (some r)).eff.balanceEmails = 0 := by
  have hvalid : (!(VALID_STATUSES.contains ("Service Complete" : String))) = false := by
    decide
  have hnc : (("Service Complete" : String) == "Confirmed") = false := by decide
  have hsc : (("Service Complete" : String) == "Service Complete") = true := by decide
  have hnotle : ¬ ((2 : ℚ) ≤ parseBalance r.balanceDue) := not_le.mpr hbal
  have key : updateStatus env "Service Complete" (some r)
      = ⟨200, some { r with depositStatus := "Service Complete" },
         { rowSaves := 1 }⟩ := by
    simp only [updateStatus, hvalid, hnc, hsc, Bool.false_and, Bool.true_and,
      Bool.false_eq_true, if_false]
    split
    · have hncond : ¬ ((2 : ℚ) ≤ parseBalance r.balanceDue ∧
          r.balanceStatus ≠ "Paid" ∧ r.balanceStatus ≠ "Requested") :=
        fun hc => hnotle hc.1
      rw [if_neg hncond]
    · rfl
  exact ⟨by rw [key], by rw [key], by simp [hpending], rfl,
    by rw [key], by rw [key]⟩

/-- Witness for C9: a confirmed booking with an empty `Balance Due (R)` cell
(parsed balance 0 < 2) transitioned to `Service Complete`. -/
theorem service_complete_below_threshold_witness :
    parseBalance "" < 2 ∧
    (updateStatus ⟨true, some "https://pay.example/redirect", "pb-page", none⟩
        "Service Complete"
        (some ⟨"PB-9", "2026-05-01", "09:00-10:00", "Confirmed", "Pending",
          "", "", "", ""⟩)).httpStatus = 200 ∧
    (updateStatus ⟨true, some "https://pay.example/redirect", "pb-page", none⟩
        "Service Complete"
        (some ⟨"PB-9", "2026-05-01", "09:00-10:00", "Confirmed", "Pending",
          "", "", "", ""⟩)).stored
      = some ⟨"PB-9", "2026-05-01", "09:00-10:00", "Service Complete", "Pending",
          "", "", "", ""⟩ ∧
    (updateStatus ⟨true, some "https://pay.example/redirect", "pb-page", none⟩
        "Service Complete"
        (some ⟨"PB-9", "2026-05-01", "09:00-10:00", "Confirmed", "Pending",
          "", "", "", ""⟩)).eff.checkoutCalls = 0 ∧
    (updateStatus ⟨true, some "https://pay.example/redirect", "pb-page", none⟩
        "Service Complete"
        (some ⟨"PB-9", "2026-05-01", "09:00-10:00", "Confirmed", "Pending",
          "", "", "", ""⟩)).eff.balanceEmails = 0 := by
  have hb : parseBalance "" < 2 := by
    rw [show parseBalance "" = 0 from rfl]
    norm_num
  have h := service_complete_below_threshold
    ⟨true, some "https://pay.example/redirect", "pb-page", none⟩
    ⟨"PB-9", "2026-05-01", "09:00-10:00", "Confirmed", "Pending", "", "", "", ""⟩
    hb rfl
  exact ⟨hb, h.1, h.2.1, h.2.2.2.2.1, h.2.2.2.2.2⟩

end Phenome
